import Mathlib

/-!
Verification of `.github/scripts/update_profile.py` (profile-README updater).

The script is shallowly embedded: Python strings become `String`, Python
lists become `List`, filesystem and image side effects are modelled by the
values the script computes (paths written, fill colors, actions taken).
-/

set_option autoImplicit false
set_option maxRecDepth 10000

namespace UpdateProfile

/-- Lowercase a string character by character, as Python `str.lower()` does
on the ASCII strings this script handles. -/
def toLower (s : String) : String := String.mk (s.data.map Char.toLower)

/-- Python suffix test `s.endswith(suf)`, on character lists. -/
def strEndsWith (s suf : String) : Bool := List.isSuffixOf suf.data s.data

/-- Python substring test `pat in s`, on the character list of `s`. -/
def containsSub (pat : List Char) : List Char → Bool
  | [] => pat.isEmpty
  | c :: rest => pat.isPrefixOf (c :: rest) || containsSub pat rest

/-- Python `pat in s` for strings. -/
def strContains (s pat : String) : Bool := containsSub pat.data s.data

/-- Embeds `get_available_images` (update_profile.py lines 11-28): keep the
directory entries whose lowercased name ends in a recognized image
extension, and skip the seasonal file `padoru.png` unless the current
month is 12. The directory listing and the wall-clock month are explicit
parameters. -/
def get_available_images (files : List String) (month : Nat) : List String :=
  files.filter (fun file =>
    (strEndsWith (toLower file) ".jpg" || strEndsWith (toLower file) ".jpeg" ||
     strEndsWith (toLower file) ".png" || strEndsWith (toLower file) ".gif") &&
    !(toLower file == "padoru.png" && month != 12))

/-- Embeds the selection check in `main` (lines 148-150): raising
`ValueError` when the filtered listing is empty is an `Except.error`. -/
def mainSelect (files : List String) (month : Nat) : Except String (List String) :=
  let images := get_available_images files month
  if images.isEmpty then Except.error "No suitable images found in Waifu folder"
  else Except.ok images

/-- Newline character, written by code point. -/
def nl : Char := Char.ofNat 10

/-- Newline as a one-character string. -/
def nlStr : String := String.singleton nl

/-- Python `str.split(sep)` for a one-character separator, on character
lists: splitting the empty text yields one empty piece, and every
occurrence of the separator starts a new piece. -/
def pySplitCh (sep : Char) : List Char → List (List Char)
  | [] => [[]]
  | c :: rest =>
    match pySplitCh sep rest with
    | [] => [[]]
    | h :: t => if c = sep then [] :: h :: t else (c :: h) :: t

/-- Python `sep.join(pieces)` for a one-character separator. -/
def pyJoinCh (sep : Char) : List (List Char) → List Char
  | [] => []
  | [l] => l
  | l :: ls => l ++ sep :: pyJoinCh sep ls

/-- The document content split into lines, as `content.split(chr(10))`. -/
def splitLinesStr (content : String) : List String :=
  (pySplitCh nl content.data).map String.mk

/-- Marker substring locating the image line (update_profile.py line 82). -/
def imgMarker : String := "<img src=\"cropped.jpg\""

/-- Apostrophe as a one-character string, written by code point. -/
def apos : String := String.singleton (Char.ofNat 39)

/-- Replacement image line built at update_profile.py line 84. -/
def new_img_line : String :=
  "<img src=\"cropped.jpg\" alt=\"Unfortunately I didn" ++ apos ++
    "t find the author of the pic, feel to open a pull request if found\" width=\"320\" />"

/-- Opening marker of the color-palette block (update_profile.py line 93). -/
def popen : String := "<p align=\"center\">"

/-- Closing marker of the color-palette block. -/
def pclose : String := "</p>"

/-- Embeds the first loop of `update_readme` (lines 87-91): the first line
containing `imgMarker` is replaced by `new_img_line`; the loop breaks at
the first hit, so later matching lines are untouched. -/
def replaceFirstImg : List String → List String
  | [] => []
  | l :: ls =>
    if strContains l imgMarker then new_img_line :: ls
    else l :: replaceFirstImg ls

/-- Python `s.lstrip(chr(35))`: drop every leading hash character. -/
def lstripHash (s : String) : String :=
  String.mk (s.data.dropWhile (fun c => c = '#'))

/-- One swatch `img` tag of the palette block (update_profile.py line 100). -/
def colorImgTag (color : String) : String :=
  "<img alt=\"" ++ color ++
    "\" src=\"https://raw.githubusercontent.com/TryKatChup/TryKatChup/main/img/" ++
    lstripHash color ++ ".png\" width=\"25\" height=\"20\" />"

/-- The `new_color_palette_line` string built at update_profile.py
line 103: opening marker, newline, all swatch tags joined with no
separator, newline, closing marker. -/
def new_color_palette_line (colors : List String) : String :=
  popen ++ nlStr ++ String.join (colors.map colorImgTag) ++ nlStr ++ pclose

/-- The freshly built palette block as a list of lines, as the script
computes it by `new_color_palette_line.split(chr(10))`. -/
def paletteBlock (colors : List String) : List String :=
  (pySplitCh nl (new_color_palette_line colors).data).map String.mk

/-- Embeds the second loop of `update_readme` (lines 106-124). The Python
loop walks an index `i` with a flag `in_color_section`, initially false;
on the first line containing `popen` it scans forward (from that same
line) to the first line containing `pclose`, then advances past it,
appends the new block, and the unconditional `i += 1` at the end of the
loop body advances once more; every other line is copied. The
scan-then-advance is `(dropWhile (no pclose)).drop 2`: one `drop` for the
closing-marker line, one for the trailing `i += 1` of the loop body (when
no closing line exists the scan reaches the end and both drops are
vacuous). The flag, once set, never resets, so every line after the
single replacement takes the else-branch of the Python conditional and is
appended verbatim: the embedding returns those remaining lines
unchanged. -/
def updLoop (nb : List String) : List String → List String
  | [] => []
  | l :: ls =>
    if strContains l popen then
      nb ++ (List.dropWhile (fun x => !strContains x pclose) (l :: ls)).drop 2
    else
      l :: updLoop nb ls

/-- Embeds `update_readme` (update_profile.py lines 71-128) at the level
of document content: split into lines, replace the image line, replace the
palette region, join with newlines. The `create_color_image` calls made
while building the tags are modelled separately (they only touch the
filesystem). -/
def update_readme (content : String) (colors : List String) : String :=
  let lines := splitLinesStr content
  let lines2 := replaceFirstImg lines
  String.mk (pyJoinCh nl ((updLoop (paletteBlock colors) lines2).map String.data))

/-- Lowercase hexadecimal digit for a value below 16, as Python `format`
with conversion `x` produces. -/
def hexDigitChar (n : Nat) : Char :=
  if n < 10 then Char.ofNat (48 + n) else Char.ofNat (87 + n)

/-- Fuel-driven hexadecimal digit expansion, most significant digit
first. The fuel bounds the number of digits; `natToHex` supplies enough. -/
def natToHexAux : Nat → Nat → List Char
  | 0, _ => []
  | fuel + 1, n =>
    if n < 16 then [hexDigitChar n]
    else natToHexAux fuel (n / 16) ++ [hexDigitChar (n % 16)]

/-- Hexadecimal digits of a natural number, lowercase, no padding. -/
def natToHex (n : Nat) : List Char := natToHexAux (n + 1) n

/-- Python `format(n, str(0) + str(2) + chr(120))` for a natural number:
lowercase hexadecimal digits, left-padded with zeros to width two. -/
def format02x (n : Nat) : String :=
  String.mk (List.replicate (2 - (natToHex n).length) '0' ++ natToHex n)

/-- Python `format(i, ...)` with the same spec on a possibly negative
integer: a sign followed by the digits of the absolute value. -/
def pyFormat02x (i : Int) : String :=
  if i < 0 then "-" ++ format02x i.natAbs else format02x i.toNat

/-- Numpy `astype(int)` on one float channel: truncation toward zero,
which on a rational in lowest terms is the T-division of numerator by
denominator. Floats are modelled as rationals. -/
def astypeInt (q : ℚ) : Int :=
  Int.tdiv q.num (q.den : Int)

/-- One line of the comprehension at update_profile.py line 49: a cluster
center becomes a hash sign followed by the three channels, each truncated
by `astype(int)` and formatted as two lowercase hex digits. -/
def hexOfCenter (c : ℚ × ℚ × ℚ) : String :=
  "#" ++ pyFormat02x (astypeInt c.1) ++ pyFormat02x (astypeInt c.2.1) ++
    pyFormat02x (astypeInt c.2.2)

/-- Embeds the tail of `extract_dominant_colors` (update_profile.py lines
46-51): the list of cluster centers returned by the clustering is mapped
to hex color strings. The decoding, RGB conversion, resizing and
clustering happen in external libraries (PIL, numpy, scikit-learn); the
centers are therefore an explicit parameter, constrained by
`IsKMeansCenters` below. -/
def extract_dominant_colors (centers : List (ℚ × ℚ × ℚ)) : List String :=
  centers.map hexOfCenter

/-- All three channels of a pixel or center lie in the byte range. Pixels
of an image converted to mode RGB are bytes, so every pixel list fed to
the clustering satisfies this. -/
def ChannelsInRange (p : ℚ × ℚ × ℚ) : Prop :=
  0 ≤ p.1 ∧ p.1 ≤ 255 ∧ 0 ≤ p.2.1 ∧ p.2.1 ≤ 255 ∧ 0 ≤ p.2.2 ∧ p.2.2 ≤ 255

/-- Contract of `KMeans(n_clusters=K).fit(pixels).cluster_centers_` from
scikit-learn, which is external to the repository: when K does not exceed
the number of distinct pixels the fit succeeds and returns exactly K
centers, and every returned center is the arithmetic mean (channel by
channel) of a nonempty cluster drawn from the input pixels. -/
def IsKMeansCenters (pixels : List (ℚ × ℚ × ℚ)) (K : Nat)
    (centers : List (ℚ × ℚ × ℚ)) : Prop :=
  centers.length = K ∧
  ∀ c ∈ centers, ∃ cl : List (ℚ × ℚ × ℚ), cl ≠ [] ∧ (∀ p ∈ cl, p ∈ pixels) ∧
    c.1 = (cl.map (fun p => p.1)).sum / cl.length ∧
    c.2.1 = (cl.map (fun p => p.2.1)).sum / cl.length ∧
    c.2.2 = (cl.map (fun p => p.2.2)).sum / cl.length

/-- A character in `[0-9a-f]`. -/
def isLowerHexDigit (c : Char) : Bool :=
  (decide ('0' ≤ c) && decide (c ≤ '9')) || (decide ('a' ≤ c) && decide (c ≤ 'f'))

/-- Matches the regular expression `^#[0-9a-f]` followed by exactly six
such digits and the end of the string: a hash sign and six lowercase hex
digits. -/
def isHexColorStr (s : String) : Bool :=
  match s.data with
  | c :: rest => c = '#' && rest.length = 6 && rest.all isLowerHexDigit
  | [] => false

/-- Numeric value of one hexadecimal digit, accepting both cases as
Python `int(s, 16)` does. -/
def hexVal (c : Char) : Nat :=
  if '0' ≤ c ∧ c ≤ '9' then c.toNat - 48
  else if 'a' ≤ c ∧ c ≤ 'f' then c.toNat - 87
  else if 'A' ≤ c ∧ c ≤ 'F' then c.toNat - 55
  else 0

/-- Character accepted by Python `int(s, 16)` as a digit. -/
def isHexDigitCh (c : Char) : Bool :=
  (decide ('0' ≤ c) && decide (c ≤ '9')) || (decide ('a' ≤ c) && decide (c ≤ 'f')) ||
    (decide ('A' ≤ c) && decide (c ≤ 'F'))

/-- Python slice `s[i:i+2]` on a character list. -/
def pySlice2 (l : List Char) (i : Nat) : List Char := (l.drop i).take 2

/-- Python `int(s, 16)` on the plain digit strings this script ever
builds: `none` (a raised `ValueError`) when the string is empty or has a
non-digit, otherwise the base-16 value. -/
def pyIntHex (cs : List Char) : Option Nat :=
  if cs.isEmpty then none
  else if cs.all isHexDigitCh then
    some (cs.foldl (fun a c => 16 * a + hexVal c) 0)
  else none

/-- A solid-fill image as PIL `Image.new` with a single fill color
produces: every pixel of the `width` by `height` grid holds `fill`. -/
structure SolidImage where
  width : Nat
  height : Nat
  fill : Nat × Nat × Nat
deriving DecidableEq

/-- Pixel of a solid image at any coordinate of the grid. -/
def SolidImage.pixelAt (img : SolidImage) (_x _y : Nat) : Nat × Nat × Nat :=
  img.fill

/-- Embeds `create_color_image` (update_profile.py lines 53-69) with the
default width 25 and height 20: strip leading hash signs, parse the three
two-character slices at offsets 0, 2 and 4 as hex bytes, and write a
solid image of that color to `img/` followed by the stripped digits and
`.png` (the directory is created if absent and an existing file at the
path is overwritten; the returned path models the write). A failed parse
is a raised `ValueError`, hence `none`. -/
def create_color_image (hex_color : String) : Option (SolidImage × String) :=
  let h := (hex_color.data.dropWhile (fun c => c = '#'))
  match pyIntHex (pySlice2 h 0), pyIntHex (pySlice2 h 2), pyIntHex (pySlice2 h 4) with
  | some r, some g, some b =>
      some (⟨25, 20, (r, g, b)⟩, "img/" ++ String.mk h ++ ".png")
  | _, _, _ => none

/-- The two ways `copy_selected_image` materializes the output: a
byte-preserving `shutil.copy2`, or PIL decode, `convert` to mode RGB and
re-encode as JPEG. -/
inductive MaterializeAction where
  | copyBytes (source : String)
  | reencodeRGBJpeg (source : String)
deriving DecidableEq

/-- Embeds `copy_selected_image` (update_profile.py lines 130-141): the
source is the selected name under the `Waifu` folder; names ending in
`.jpg` or `.jpeg` (lowercased) are byte-copied to `cropped.jpg`, anything
else is decoded, converted to RGB and saved as JPEG at `cropped.jpg`. -/
def copy_selected_image (selected : String) : MaterializeAction × String :=
  let source_path := "Waifu/" ++ selected
  if strEndsWith (toLower selected) ".jpg" || strEndsWith (toLower selected) ".jpeg" then
    (MaterializeAction.copyBytes source_path, "cropped.jpg")
  else
    (MaterializeAction.reencodeRGBJpeg source_path, "cropped.jpg")

/-- Artifact paths written by one successful run of `main` (lines
143-169): the fixed output image path written by `copy_selected_image`,
and one swatch path per extracted color, written by the
`create_color_image` calls inside `update_readme`. -/
def runArtifacts (colors : List String) : String × List String :=
  ("cropped.jpg", colors.map (fun c => "img/" ++ (lstripHash c) ++ ".png"))

end UpdateProfile

namespace UpdateProfile

/-! Helper lemmas about hex formatting and means. -/

theorem hexDigitChar_isLowerHex {n : Nat} (h : n < 16) :
    isLowerHexDigit (hexDigitChar n) = true := by
  interval_cases n <;> decide

theorem natToHex_of_lt16 {n : Nat} (h : n < 16) : natToHex n = [hexDigitChar n] := by
  unfold natToHex
  rw [natToHexAux, if_pos h]

theorem natToHex_of_ge16 {n : Nat} (h1 : 16 ≤ n) (h2 : n < 256) :
    natToHex n = [hexDigitChar (n / 16), hexDigitChar (n % 16)] := by
  unfold natToHex
  rw [natToHexAux, if_neg (by omega)]
  have hd : n / 16 < 16 := (Nat.div_lt_iff_lt_mul (by norm_num)).mpr h2
  obtain ⟨m, rfl⟩ : ∃ m, n = m + 1 := ⟨n - 1, by omega⟩
  rw [natToHexAux, if_pos hd]
  rfl

theorem format02x_byte {n : Nat} (h : n < 256) :
    (format02x n).data.length = 2 ∧
      ∀ c ∈ (format02x n).data, isLowerHexDigit c = true := by
  by_cases h16 : n < 16
  · unfold format02x
    rw [natToHex_of_lt16 h16]
    refine ⟨rfl, ?_⟩
    intro c hc
    simp only [List.replicate, List.cons_append, List.nil_append, List.mem_cons,
      List.mem_singleton, List.not_mem_nil] at hc
    rcases hc with rfl | rfl | h'
    · decide
    · exact hexDigitChar_isLowerHex h16
    · cases h'
  · unfold format02x
    rw [natToHex_of_ge16 (by omega) h]
    refine ⟨rfl, ?_⟩
    intro c hc
    simp only [List.replicate, List.nil_append, List.mem_cons, List.mem_singleton,
      List.not_mem_nil] at hc
    rcases hc with rfl | rfl | h'
    · exact hexDigitChar_isLowerHex ((Nat.div_lt_iff_lt_mul (by norm_num)).mpr h)
    · exact hexDigitChar_isLowerHex (Nat.mod_lt _ (by norm_num))
    · cases h'

theorem astypeInt_eq_floor {q : ℚ} (h : 0 ≤ q) : astypeInt q = ⌊q⌋ := by
  unfold astypeInt
  rw [Int.tdiv_eq_ediv (Rat.num_nonneg.mpr h) (Int.natCast_nonneg _)]
  exact (Rat.floor_def).symm

theorem astypeInt_byte {q : ℚ} (h0 : 0 ≤ q) (h255 : q ≤ 255) :
    0 ≤ astypeInt q ∧ astypeInt q < 256 := by
  rw [astypeInt_eq_floor h0]
  refine ⟨Int.floor_nonneg.mpr h0, ?_⟩
  have h1 : (⌊q⌋ : ℚ) ≤ 255 := le_trans (Int.floor_le q) h255
  have h2 : ⌊q⌋ ≤ 255 := by exact_mod_cast h1
  omega

theorem pyFormat02x_byte {i : Int} (h0 : 0 ≤ i) (h : i < 256) :
    (pyFormat02x i).data.length = 2 ∧
      ∀ c ∈ (pyFormat02x i).data, isLowerHexDigit c = true := by
  unfold pyFormat02x
  rw [if_neg (by omega)]
  exact format02x_byte (by omega)

theorem mean_bounds {α : Type} (f : α → ℚ) (cl : List α) (hne : cl ≠ [])
    (h : ∀ p ∈ cl, 0 ≤ f p ∧ f p ≤ 255) :
    0 ≤ (cl.map f).sum / (cl.length : ℚ) ∧ (cl.map f).sum / (cl.length : ℚ) ≤ 255 := by
  have hlen : (0 : ℚ) < (cl.length : ℚ) := by
    exact_mod_cast List.length_pos.mpr hne
  constructor
  · refine div_nonneg (List.sum_nonneg ?_) hlen.le
    intro x hx
    obtain ⟨p, hp, rfl⟩ := List.mem_map.mp hx
    exact (h p hp).1
  · rw [div_le_iff₀ hlen]
    calc (cl.map f).sum ≤ (cl.map f).length • (255 : ℚ) :=
          List.sum_le_card_nsmul _ _ (by
            intro x hx
            obtain ⟨p, hp, rfl⟩ := List.mem_map.mp hx
            exact (h p hp).2)
    _ = 255 * (cl.length : ℚ) := by
          rw [List.length_map, nsmul_eq_mul]
          ring

theorem hexOfCenter_format {c : ℚ × ℚ × ℚ} (h : ChannelsInRange c) :
    isHexColorStr (hexOfCenter c) = true := by
  obtain ⟨h1, h2, h3, h4, h5, h6⟩ := h
  obtain ⟨b1l, b1r⟩ := astypeInt_byte h1 h2
  obtain ⟨b2l, b2r⟩ := astypeInt_byte h3 h4
  obtain ⟨b3l, b3r⟩ := astypeInt_byte h5 h6
  obtain ⟨len1, hex1⟩ := pyFormat02x_byte b1l b1r
  obtain ⟨len2, hex2⟩ := pyFormat02x_byte b2l b2r
  obtain ⟨len3, hex3⟩ := pyFormat02x_byte b3l b3r
  unfold hexOfCenter isHexColorStr
  rw [String.data_append, String.data_append, String.data_append]
  have hhash : ("#" : String).data = ['#'] := rfl
  rw [hhash]
  simp only [List.cons_append, List.nil_append, List.append_assoc]
  simp only [List.length_append, List.all_append, len1, len2, len3,
    Bool.and_eq_true, List.all_eq_true, decide_eq_true_eq]
  simp_all

/-! Claim theorems. -/

/-- C1: for every directory listing and every clock value,
`get_available_images` never includes the seasonal-restricted file
`padoru.png` in its result when the current month is not 12, and when the
current month is 12 that file remains an eligible candidate (subject only
to the extension filter, which it passes). -/
theorem padoru_seasonal_gate (files : List String) (month : Nat) :
    (month ≠ 12 → ∀ f ∈ get_available_images files month, toLower f ≠ "padoru.png") ∧
    (month = 12 → ∀ f ∈ files, toLower f = "padoru.png" →
      f ∈ get_available_images files month) := by
  constructor
  · intro hm f hf hlow
    obtain ⟨-, hp⟩ := List.mem_filter.mp hf
    rw [hlow] at hp
    simp only [Bool.and_eq_true, Bool.not_eq_true', Bool.and_eq_false_iff,
      beq_iff_eq, bne_eq_false_iff_eq] at hp
    rcases hp.2 with h | h
    · simp at h
    · exact hm h
  · intro hm f hf hlow
    refine List.mem_filter.mpr ⟨hf, ?_⟩
    rw [hlow, hm]
    decide

/-- C1 witness: with month 6 the listing containing `padoru.png` never
yields it; with month 12 it does. -/
theorem padoru_seasonal_gate_witness :
    "padoru.png" ∉ get_available_images ["padoru.png", "a.jpg"] 6 ∧
    "padoru.png" ∈ get_available_images ["padoru.png"] 12 := by
  constructor
  · intro hmem
    exact (padoru_seasonal_gate ["padoru.png", "a.jpg"] 6).1 (by decide)
      "padoru.png" hmem (by decide)
  · exact (padoru_seasonal_gate ["padoru.png"] 12).2 rfl "padoru.png"
      (by decide) (by decide)

/-- C8: the selection step of `main` raises the Empty-Selection
`ValueError` exactly when the filtered candidate list produced by
`get_available_images` is empty, and succeeds on every non-empty
candidate list. -/
theorem empty_selection_iff (files : List String) (month : Nat) :
    mainSelect files month = Except.error "No suitable images found in Waifu folder" ↔
      get_available_images files month = [] := by
  unfold mainSelect
  by_cases h : (get_available_images files month).isEmpty
  · rw [if_pos h]
    simp [List.isEmpty_iff.mp h]
  · rw [if_neg h]
    constructor
    · intro hcontra
      cases hcontra
    · intro hnil
      rw [List.isEmpty_iff] at h
      exact absurd hnil h

/-- C6: in the image region of `update_readme`, exactly the first line
containing the marker substring is replaced by the fixed tag, and when no
line contains the marker the line list is returned unchanged: the
replacement pass equals a `set` at the first match index, or the identity
when there is none. -/
theorem image_region_first_match_only (lines : List String) :
    replaceFirstImg lines =
      match lines.findIdx? (fun l => strContains l imgMarker) with
      | some i => lines.set i new_img_line
      | none => lines := by
  induction lines with
  | nil => rfl
  | cons l ls ih =>
    by_cases h : strContains l imgMarker = true
    · simp [replaceFirstImg, List.findIdx?_cons, h]
    · have h' : strContains l imgMarker = false := by
        simpa using h
      rw [List.findIdx?_cons, List.findIdx?_succ]
      simp only [h', Bool.false_eq_true, if_false]
      rw [replaceFirstImg]
      simp only [h', Bool.false_eq_true, if_false]
      rw [ih]
      cases hopt : ls.findIdx? (fun l => strContains l imgMarker) with
      | none => simp
      | some i => simp

/-- C7: for every selected filename, `copy_selected_image` targets the
fixed output `cropped.jpg`; when the lowercased name ends in `.jpg` or
`.jpeg` it byte-copies the source from the `Waifu` folder, and otherwise
it decodes the source, converts to RGB and re-encodes as JPEG. -/
theorem copy_selected_image_spec (s : String) :
    (copy_selected_image s).2 = "cropped.jpg" ∧
    ((strEndsWith (toLower s) ".jpg" || strEndsWith (toLower s) ".jpeg") = true →
      (copy_selected_image s).1 = MaterializeAction.copyBytes ("Waifu/" ++ s)) ∧
    ((strEndsWith (toLower s) ".jpg" || strEndsWith (toLower s) ".jpeg") = false →
      (copy_selected_image s).1 = MaterializeAction.reencodeRGBJpeg ("Waifu/" ++ s)) := by
  unfold copy_selected_image
  by_cases h : (strEndsWith (toLower s) ".jpg" || strEndsWith (toLower s) ".jpeg") = true
  · rw [if_pos h]
    exact ⟨rfl, fun _ => rfl, fun hc => by rw [h] at hc; cases hc⟩
  · rw [if_neg h]
    exact ⟨rfl, fun hc => absurd hc h, fun _ => rfl⟩

/-- C7 witness: a `.jpg` name is byte-copied, a `.gif` name is
re-encoded; both land at `cropped.jpg`. -/
theorem copy_selected_image_spec_witness :
    (copy_selected_image "b.JPG").1 = MaterializeAction.copyBytes ("Waifu/" ++ "b.JPG") ∧
    (copy_selected_image "anim.gif").1 =
      MaterializeAction.reencodeRGBJpeg ("Waifu/" ++ "anim.gif") ∧
    (copy_selected_image "anim.gif").2 = "cropped.jpg" := by
  exact ⟨(copy_selected_image_spec "b.JPG").2.1 (by decide),
    (copy_selected_image_spec "anim.gif").2.2 (by decide),
    (copy_selected_image_spec "anim.gif").1⟩

theorem isHexDigitCh_of_lower {c : Char} (h : isLowerHexDigit c = true) :
    isHexDigitCh c = true := by
  unfold isLowerHexDigit at h
  unfold isHexDigitCh
  simp only [Bool.or_eq_true, Bool.and_eq_true] at h ⊢
  tauto

theorem ne_hash_of_hexDigit {c : Char} (h : isHexDigitCh c = true) : ¬(c = '#') := by
  intro he
  subst he
  exact absurd h (by decide)

theorem pyIntHex_pair {a b : Char} (ha : isHexDigitCh a = true) (hb : isHexDigitCh b = true) :
    pyIntHex [a, b] = some (16 * hexVal a + hexVal b) := by
  unfold pyIntHex
  rw [if_neg (by simp), if_pos (by simp [ha, hb])]
  have harith : 16 * (16 * 0 + hexVal a) + hexVal b = 16 * hexVal a + hexVal b := by ring
  simp only [List.foldl, harith]

theorem create_color_image_eq (d1 d2 d3 d4 d5 d6 : Char)
    (h : ∀ c ∈ [d1, d2, d3, d4, d5, d6], isHexDigitCh c = true) :
    create_color_image (String.mk ('#' :: [d1, d2, d3, d4, d5, d6])) =
      some (⟨25, 20, (16 * hexVal d1 + hexVal d2, 16 * hexVal d3 + hexVal d4,
          16 * hexVal d5 + hexVal d6)⟩,
        "img/" ++ String.mk [d1, d2, d3, d4, d5, d6] ++ ".png") := by
  have h1 := h d1 (by simp)
  have h2 := h d2 (by simp)
  have h3 := h d3 (by simp)
  have h4 := h d4 (by simp)
  have h5 := h d5 (by simp)
  have h6 := h d6 (by simp)
  unfold create_color_image
  have hdata : (String.mk ('#' :: [d1, d2, d3, d4, d5, d6])).data =
      '#' :: [d1, d2, d3, d4, d5, d6] := rfl
  rw [hdata]
  rw [List.dropWhile_cons_of_pos (by decide),
    List.dropWhile_cons_of_neg (by simpa using ne_hash_of_hexDigit h1)]
  have s0 : pySlice2 [d1, d2, d3, d4, d5, d6] 0 = [d1, d2] := rfl
  have s2 : pySlice2 [d1, d2, d3, d4, d5, d6] 2 = [d3, d4] := rfl
  have s4 : pySlice2 [d1, d2, d3, d4, d5, d6] 4 = [d5, d6] := rfl
  dsimp only
  rw [s0, s2, s4, pyIntHex_pair h1 h2, pyIntHex_pair h3 h4, pyIntHex_pair h5 h6]

theorem create_color_image_isSome_of_hex {s : String} (h : isHexColorStr s = true) :
    (create_color_image s).isSome = true := by
  obtain ⟨data⟩ := s
  match data with
  | [] => exact absurd h (by decide)
  | c :: rest =>
    unfold isHexColorStr at h
    simp only [Bool.and_eq_true, decide_eq_true_eq, List.all_eq_true] at h
    obtain ⟨⟨hc, hlen⟩, hall⟩ := h
    subst hc
    match rest, hlen with
    | [d1, d2, d3, d4, d5, d6], _ =>
      rw [create_color_image_eq d1 d2 d3 d4 d5 d6 (by
        intro c hc
        exact isHexDigitCh_of_lower (hall c hc))]
      rfl

theorem singleton_cluster_center (pixels : List (ℚ × ℚ × ℚ)) (c : ℚ × ℚ × ℚ)
    (hc : c ∈ pixels) :
    ∃ cl : List (ℚ × ℚ × ℚ), cl ≠ [] ∧ (∀ p ∈ cl, p ∈ pixels) ∧
      c.1 = (cl.map (fun p => p.1)).sum / cl.length ∧
      c.2.1 = (cl.map (fun p => p.2.1)).sum / cl.length ∧
      c.2.2 = (cl.map (fun p => p.2.2)).sum / cl.length := by
  refine ⟨[c], by simp, ?_, ?_, ?_, ?_⟩
  · intro p hp
    simp only [List.mem_cons, List.not_mem_nil, or_false] at hp
    rw [hp]
    exact hc
  all_goals simp

theorem extract_colors_wellformed (pixels centers : List (ℚ × ℚ × ℚ)) (K : Nat)
    (hpix : ∀ p ∈ pixels, ChannelsInRange p)
    (hkm : IsKMeansCenters pixels K centers) :
    (extract_dominant_colors centers).length = K ∧
    ∀ s ∈ extract_dominant_colors centers, isHexColorStr s = true := by
  obtain ⟨hlen, hmean⟩ := hkm
  refine ⟨by simpa [extract_dominant_colors] using hlen, ?_⟩
  intro s hs
  obtain ⟨c, hc, rfl⟩ := List.mem_map.mp hs
  obtain ⟨cl, hne, hsub, e1, e2, e3⟩ := hmean c hc
  apply hexOfCenter_format
  have r1 := mean_bounds (fun p => p.1) cl hne (fun p hp =>
    ⟨((hpix p (hsub p hp)) : ChannelsInRange p).1, (hpix p (hsub p hp)).2.1⟩)
  have r2 := mean_bounds (fun p => p.2.1) cl hne (fun p hp =>
    ⟨(hpix p (hsub p hp)).2.2.1, (hpix p (hsub p hp)).2.2.2.1⟩)
  have r3 := mean_bounds (fun p => p.2.2) cl hne (fun p hp =>
    ⟨(hpix p (hsub p hp)).2.2.2.2.1, (hpix p (hsub p hp)).2.2.2.2.2⟩)
  unfold ChannelsInRange
  rw [e1, e2, e3]
  exact ⟨r1.1, r1.2, r2.1, r2.2, r3.1, r3.2⟩

/-- C4: whenever the clustering returns K centers, each the mean of a
nonempty cluster of byte-range pixels (which is what happens for every
decodable image and K at most the number of distinct pixels),
`extract_dominant_colors` returns exactly K strings, each a hash sign
followed by six lowercase hex digits, the channels being the
cluster-center floats truncated toward zero into the byte range. -/
theorem extract_dominant_colors_format (pixels centers : List (ℚ × ℚ × ℚ)) (K : Nat)
    (hpix : ∀ p ∈ pixels, ChannelsInRange p)
    (hkm : IsKMeansCenters pixels K centers) :
    (extract_dominant_colors centers).length = K ∧
    ∀ s ∈ extract_dominant_colors centers, isHexColorStr s = true :=
  extract_colors_wellformed pixels centers K hpix hkm

/-- C4 witness: two monochrome clusters give two well-formed hex
strings. -/
theorem extract_dominant_colors_format_witness :
    (extract_dominant_colors [((0 : ℚ), (0 : ℚ), (0 : ℚ)),
      ((255 : ℚ), (255 : ℚ), (255 : ℚ))]).length = 2 ∧
    isHexColorStr "#000000" = true := by
  have h := extract_dominant_colors_format
    [((0 : ℚ), (0 : ℚ), (0 : ℚ)), ((255 : ℚ), (255 : ℚ), (255 : ℚ))]
    [((0 : ℚ), (0 : ℚ), (0 : ℚ)), ((255 : ℚ), (255 : ℚ), (255 : ℚ))] 2
    (by
      intro p hp
      unfold ChannelsInRange
      simp only [List.mem_cons, List.not_mem_nil, or_false] at hp
      rcases hp with rfl | rfl <;> norm_num)
    (by
      refine ⟨rfl, ?_⟩
      intro c hc
      simp only [List.mem_cons, List.not_mem_nil, or_false] at hc
      rcases hc with rfl | rfl
      · refine ⟨[((0 : ℚ), (0 : ℚ), (0 : ℚ))], by simp, ?_, ?_, ?_, ?_⟩
        · intro p hp
          simp only [List.mem_cons, List.not_mem_nil, or_false] at hp
          simp [hp]
        all_goals simp
      · refine ⟨[((255 : ℚ), (255 : ℚ), (255 : ℚ))], by simp, ?_, ?_, ?_, ?_⟩
        · intro p hp
          simp only [List.mem_cons, List.not_mem_nil, or_false] at hp
          simp [hp]
        all_goals simp)
  exact ⟨h.1, h.2 "#000000" (by decide)⟩

/-- C9: for every valid 6-hex-digit color string (hash sign followed by
six hex digits), `create_color_image` produces a 25 by 20 solid image
every pixel of which is the RGB triple denoted by the hex string, at path
`img/` + digits + `.png` with the hash sign stripped. -/
theorem create_color_image_spec (d1 d2 d3 d4 d5 d6 : Char)
    (h : ∀ c ∈ [d1, d2, d3, d4, d5, d6], isHexDigitCh c = true) :
    ∃ img path,
      create_color_image (String.mk ('#' :: [d1, d2, d3, d4, d5, d6])) =
        some (img, path) ∧
      path = "img/" ++ String.mk [d1, d2, d3, d4, d5, d6] ++ ".png" ∧
      img.width = 25 ∧ img.height = 20 ∧
      ∀ x y, img.pixelAt x y = (16 * hexVal d1 + hexVal d2, 16 * hexVal d3 + hexVal d4,
        16 * hexVal d5 + hexVal d6) := by
  refine ⟨_, _, create_color_image_eq d1 d2 d3 d4 d5 d6 h, rfl, rfl, rfl, ?_⟩
  intro x y
  rfl

/-- C9 witness: the string hash-aabbcc yields a solid 25 by 20 image of
RGB (170, 187, 204) at `img/aabbcc.png`. -/
theorem create_color_image_spec_witness :
    ∃ img path, create_color_image "#aabbcc" = some (img, path) ∧
      path = "img/aabbcc.png" ∧ img.width = 25 ∧ img.height = 20 ∧
      img.pixelAt 0 0 = (170, 187, 204) := by
  obtain ⟨img, path, heq, hpath, hw, hh, hpix⟩ :=
    create_color_image_spec 'a' 'a' 'b' 'b' 'c' 'c' (by decide)
  refine ⟨img, path, heq, ?_, hw, hh, ?_⟩
  · rw [hpath]
    decide
  · rw [hpix 0 0]
    decide

/-- C5: for a successful run (the clustering returned the default five
centers from byte-range pixels), the artifacts are exactly the one fixed
output image path `cropped.jpg`, five palette colors, and one swatch path
per color, each swatch write succeeding on its well-formed hex color. -/
theorem run_artifacts_five (pixels centers : List (ℚ × ℚ × ℚ))
    (hpix : ∀ p ∈ pixels, ChannelsInRange p)
    (hkm : IsKMeansCenters pixels 5 centers) :
    (runArtifacts (extract_dominant_colors centers)).1 = "cropped.jpg" ∧
    (runArtifacts (extract_dominant_colors centers)).2.length = 5 ∧
    ∀ s ∈ extract_dominant_colors centers, (create_color_image s).isSome = true := by
  obtain ⟨hlen, hhex⟩ := extract_colors_wellformed pixels centers 5 hpix hkm
  refine ⟨rfl, ?_, ?_⟩
  · unfold runArtifacts
    simpa using hlen
  · intro s hs
    exact create_color_image_isSome_of_hex (hhex s hs)

/-- C5 witness: five singleton clusters give one output image path, five
swatch paths, and a successful swatch write for the first color. -/
theorem run_artifacts_five_witness :
    (runArtifacts (extract_dominant_colors [((0 : ℚ), (0 : ℚ), (0 : ℚ)),
      ((1 : ℚ), (1 : ℚ), (1 : ℚ)), ((2 : ℚ), (2 : ℚ), (2 : ℚ)),
      ((3 : ℚ), (3 : ℚ), (3 : ℚ)), ((4 : ℚ), (4 : ℚ), (4 : ℚ))])).1 = "cropped.jpg" ∧
    (runArtifacts (extract_dominant_colors [((0 : ℚ), (0 : ℚ), (0 : ℚ)),
      ((1 : ℚ), (1 : ℚ), (1 : ℚ)), ((2 : ℚ), (2 : ℚ), (2 : ℚ)),
      ((3 : ℚ), (3 : ℚ), (3 : ℚ)), ((4 : ℚ), (4 : ℚ), (4 : ℚ))])).2.length = 5 ∧
    (create_color_image "#000000").isSome = true := by
  have h := run_artifacts_five
    [((0 : ℚ), (0 : ℚ), (0 : ℚ)), ((1 : ℚ), (1 : ℚ), (1 : ℚ)),
      ((2 : ℚ), (2 : ℚ), (2 : ℚ)), ((3 : ℚ), (3 : ℚ), (3 : ℚ)),
      ((4 : ℚ), (4 : ℚ), (4 : ℚ))]
    [((0 : ℚ), (0 : ℚ), (0 : ℚ)), ((1 : ℚ), (1 : ℚ), (1 : ℚ)),
      ((2 : ℚ), (2 : ℚ), (2 : ℚ)), ((3 : ℚ), (3 : ℚ), (3 : ℚ)),
      ((4 : ℚ), (4 : ℚ), (4 : ℚ))]
    (by
      intro p hp
      unfold ChannelsInRange
      simp only [List.mem_cons, List.not_mem_nil, or_false] at hp
      rcases hp with rfl | rfl | rfl | rfl | rfl <;> norm_num)
    ⟨rfl, fun c hc => singleton_cluster_center _ c hc⟩
  exact ⟨h.1, h.2.1, h.2.2 "#000000" (by decide)⟩

/-- C10: when a document line contains the opening palette marker but no
line from it onward contains the closing marker, the palette pass of
`update_readme` removes every line from the opening-marker line to the
end of the document and appends the freshly built palette block in their
place, leaving the preceding lines intact. -/
theorem palette_unclosed_replaces_to_end (colors pre : List String) (l : String)
    (rest : List String)
    (hpre : ∀ x ∈ pre, strContains x popen = false)
    (hl : strContains l popen = true)
    (hnc : ∀ x ∈ l :: rest, strContains x pclose = false) :
    updLoop (paletteBlock colors) (pre ++ l :: rest) = pre ++ paletteBlock colors := by
  induction pre with
  | nil =>
    simp only [List.nil_append]
    rw [updLoop]
    rw [if_pos hl]
    have hdw : List.dropWhile (fun x => !strContains x pclose) (l :: rest) = [] := by
      rw [List.dropWhile_eq_nil_iff]
      intro x hx
      rw [hnc x hx]
      rfl
    rw [hdw]
    simp
  | cons p pre' ih =>
    have hp : strContains p popen = false := hpre p (by simp)
    simp only [List.cons_append]
    rw [updLoop, if_neg (by rw [hp]; simp)]
    rw [ih (fun x hx => hpre x (by simp [hx]))]

/-- C10 witness: a document with an opening marker and no closing marker
is rewritten to the prefix plus the fresh block. -/
theorem palette_unclosed_replaces_to_end_witness :
    updLoop (paletteBlock ["#abcdef"])
        (["top"] ++ "<p align=\"center\">" :: ["x", "y"]) =
      ["top"] ++ paletteBlock ["#abcdef"] := by
  exact palette_unclosed_replaces_to_end ["#abcdef"] ["top"] "<p align=\"center\">"
    ["x", "y"] (by decide) (by decide) (by decide)

/-- C2 fails on the code: `update_readme` is not idempotent, because each
application deletes the line that follows the closing palette marker.
Applying it twice to this document is not the same as applying it
once. -/
theorem update_readme_not_idempotent :
    update_readme
        (update_readme "keep\n<p align=\"center\">\nold\n</p>\nAFTER1\nAFTER2" ["#abcdef"])
        ["#abcdef"] ≠
      update_readme "keep\n<p align=\"center\">\nold\n</p>\nAFTER1\nAFTER2" ["#abcdef"] := by
  decide

/-- C3 fails on the code: the line `AFTER1` lies strictly after the
closing palette marker, outside both marked regions, yet one application
of `update_readme` erases it from the document. -/
theorem update_readme_drops_line_after_close :
    strContains "keep\n<p align=\"center\">\nold\n</p>\nAFTER1\nlast" "AFTER1" = true ∧
    strContains
        (update_readme "keep\n<p align=\"center\">\nold\n</p>\nAFTER1\nlast" ["#abcdef"])
        "AFTER1" = false := by
  constructor <;> decide

/-- Sanity evaluation: the extension filter keeps recognized extensions
case-insensitively and drops everything else. -/
theorem selector_extension_filter_eval :
    get_available_images ["a.JPG", "b.txt", "padoru.png"] 6 = ["a.JPG"] := by decide

/-- Sanity evaluation: a document whose closing marker ends the file is
rewritten to the prefix, the fresh block, nothing else. -/
theorem update_readme_block_rewrite_eval :
    update_readme "keep\n<p align=\"center\">\nold\n</p>" ["#abcdef"] =
      "keep\n<p align=\"center\">\n" ++ colorImgTag "#abcdef" ++ "\n</p>" := by
  decide

/-- Sanity evaluation of the center-to-hex pipeline. -/
theorem hexOfCenter_eval : hexOfCenter (255, (0, 17)) = "#ff0011" := by
  decide

end UpdateProfile
